import Mathlib

/-!
# Verification of the calendar event-window query and normalization layer

Shallow embedding of `src/app.py`: the window builder inside
`fetch_events_by_date_range`, the query descriptors of the two fetch
functions, and the per-event normalization inside `display_events`.

Modelling conventions:
* Python `datetime.datetime` values are records of six `Nat` fields.
* `datetime.strptime(s, "%d/%m/%Y")` is modelled on ASCII decimal digits
  (CPython would additionally accept non-ASCII unicode digits; no claim
  exercises those).
* `datetime.fromisoformat` is modelled on the forms
  `YYYY-MM-DD` and `YYYY-MM-DD<sep>HH[:MM[:SS]]` that this program's
  provider data can produce; fractional seconds and explicit offsets are
  outside the RawEvent data model and are mapped to a parse failure.
* `strftime`/`isoformat` zero-pad day, month, hour, minute, second to two
  digits and the year to four digits (all values produced by the parsers
  above fit those widths).
* Python exceptions become an `Except AppError` result; each constructor
  of `AppError` names the error kind of the specification.
-/

namespace CalApp

/-- ASCII decimal digit test, as matched by the CPython strptime regex. -/
def isDigit (c : Char) : Bool :=
  48 ≤ c.toNat && c.toNat ≤ 57

/-- Numeric value of an ASCII digit character. -/
def digitVal (c : Char) : Nat :=
  c.toNat - 48

/-- `int()` on a non-empty all-digit string, as a fold. -/
def parseNatDigits (l : List Char) : Option Nat :=
  if l ≠ [] ∧ l.all isDigit then
    some (l.foldl (fun a c => 10 * a + digitVal c) 0)
  else none

/-- Split a character list at every occurrence of `sep`
(the list analogue of Python `str.split`). -/
def splitOnChar (sep : Char) : List Char → List (List Char)
  | [] => [[]]
  | c :: rest =>
    match splitOnChar sep rest with
    | [] => [[]]
    | h :: t => if c = sep then [] :: h :: t else (c :: h) :: t

/-- Gregorian leap-year test (as in Python `datetime`). -/
def isLeap (y : Nat) : Bool :=
  (y % 4 == 0 && y % 100 != 0) || y % 400 == 0

/-- Days in a month of a given year (as in Python `datetime`). -/
def daysInMonth (y m : Nat) : Nat :=
  if m = 2 then (if isLeap y then 29 else 28)
  else if m = 4 ∨ m = 6 ∨ m = 9 ∨ m = 11 then 30
  else 31

/-- Validity check performed by the `datetime.datetime` constructor
(`MINYEAR = 1`, `MAXYEAR = 9999`). -/
def validDate (y m d : Nat) : Bool :=
  1 ≤ y && y ≤ 9999 && 1 ≤ m && m ≤ 12 && 1 ≤ d && d ≤ daysInMonth y m

/-- Time-of-day validity check of the `datetime.datetime` constructor. -/
def validTime (h mi s : Nat) : Bool :=
  h ≤ 23 && mi ≤ 59 && s ≤ 59

/-- `datetime.datetime.strptime(s, "%d/%m/%Y")`, returning
`(day, month, year)`: one or two digits for day and month, exactly four
for the year, `/` separators, and the constructed date must be a valid
Gregorian date. -/
def strptimeDMY (s : String) : Option (Nat × Nat × Nat) :=
  match splitOnChar '/' s.toList with
  | [ds, ms, ys] =>
    if ds.length ≤ 2 ∧ ms.length ≤ 2 ∧ ys.length = 4 then
      match parseNatDigits ds, parseNatDigits ms, parseNatDigits ys with
      | some d, some m, some y => if validDate y m d then some (d, m, y) else none
      | _, _, _ => none
    else none
  | _ => none

/-- A Python `datetime.datetime` value (microsecond always 0 here). -/
structure PyDateTime where
  year : Nat
  month : Nat
  day : Nat
  hour : Nat
  minute : Nat
  second : Nat
deriving DecidableEq, Repr

/-- Two-digit zero-padded decimal rendering, as a character list. -/
def pad2L (n : Nat) : List Char :=
  [Nat.digitChar (n / 10 % 10), Nat.digitChar (n % 10)]

/-- Four-digit zero-padded decimal rendering, as a character list. -/
def pad4L (n : Nat) : List Char :=
  [Nat.digitChar (n / 1000 % 10), Nat.digitChar (n / 100 % 10),
   Nat.digitChar (n / 10 % 10), Nat.digitChar (n % 10)]

/-- Character list of `strftime("%d/%m/%Y")`. -/
def dateCharsDMY (dt : PyDateTime) : List Char :=
  pad2L dt.day ++ '/' :: pad2L dt.month ++ '/' :: pad4L dt.year

/-- `strftime("%d/%m/%Y")`. -/
def strftimeDMY (dt : PyDateTime) : String :=
  String.mk (dateCharsDMY dt)

/-- Character list of `strftime("%H:%M:%S")`. -/
def timeCharsHMS (dt : PyDateTime) : List Char :=
  pad2L dt.hour ++ ':' :: pad2L dt.minute ++ ':' :: pad2L dt.second

/-- `strftime("%H:%M:%S")`. -/
def strftimeHMS (dt : PyDateTime) : String :=
  String.mk (timeCharsHMS dt)

/-- Character list of the date part of `isoformat()`. -/
def isoDateChars (dt : PyDateTime) : List Char :=
  pad4L dt.year ++ '-' :: pad2L dt.month ++ '-' :: pad2L dt.day

/-- `datetime.isoformat()` (microsecond is 0, so the seconds form). -/
def isoformat (dt : PyDateTime) : String :=
  String.mk (isoDateChars dt ++ 'T' :: timeCharsHMS dt)

/-- The `datetime.datetime` constructor as an option: `None` exactly when
the constructor would raise `ValueError`. -/
def mkDT (y mo d h i s : Nat) : Option PyDateTime :=
  if validDate y mo d && validTime h i s then some ⟨y, mo, d, h, i, s⟩ else none

/-- The `HH[:MM[:SS]]` time part of an ISO string, as
`datetime.fromisoformat` reads it. -/
def parseTimeChars (t : List Char) : Option (Nat × Nat × Nat) :=
  match t with
  | [h1, h2] =>
    match parseNatDigits [h1, h2] with
    | some h => some (h, 0, 0)
    | none => none
  | [h1, h2, ':', i1, i2] =>
    match parseNatDigits [h1, h2], parseNatDigits [i1, i2] with
    | some h, some i => some (h, i, 0)
    | _, _ => none
  | [h1, h2, ':', i1, i2, ':', s1, s2] =>
    match parseNatDigits [h1, h2], parseNatDigits [i1, i2],
          parseNatDigits [s1, s2] with
    | some h, some i, some se => some (h, i, se)
    | _, _, _ => none
  | _ => none

/-- `datetime.fromisoformat` on a character list: a `YYYY-MM-DD` date,
optionally followed by one separator character and `HH[:MM[:SS]]`. -/
def fromisoChars (l : List Char) : Option PyDateTime :=
  match l with
  | y1 :: y2 :: y3 :: y4 :: '-' :: m1 :: m2 :: '-' :: d1 :: d2 :: rest =>
    match parseNatDigits [y1, y2, y3, y4], parseNatDigits [m1, m2],
          parseNatDigits [d1, d2] with
    | some y, some mo, some d =>
      match rest with
      | [] => mkDT y mo d 0 0 0
      | _sep :: t =>
        match parseTimeChars t with
        | some his => mkDT y mo d his.1 his.2.1 his.2.2
        | none => none
    | _, _, _ => none
  | _ => none

/-- `datetime.fromisoformat` on a string. -/
def fromisoformat (s : String) : Option PyDateTime :=
  fromisoChars s.toList

/-- Python `start_iso.replace("Z", "")`: removes every `Z`. -/
def removeZ (s : String) : String :=
  String.mk (s.toList.filter (fun c => c ≠ 'Z'))

/-- The specification's parsing rule, for comparison with `removeZ`:
strip one trailing `Z` if present, keep everything else. -/
def stripTrailingZ (s : String) : String :=
  if s.toList.getLast? = some 'Z' then String.mk s.toList.dropLast else s

/-- Python `"T" in start_iso`. -/
def containsT (s : String) : Bool :=
  s.toList.contains 'T'

/-- The `start` object of a raw provider record:
`{"dateTime": ..., "date": ...}` with both keys optional. -/
structure StartField where
  dateTime : Option String
  date : Option String
deriving DecidableEq, Repr

/-- A raw event record as consumed by `display_events`:
the `summary`, `start` and `location` keys, each possibly absent. -/
structure RawEvent where
  summary : Option String
  start : Option StartField
  location : Option String
deriving DecidableEq, Repr

/-- A normalized display row before tabulation. -/
structure DisplayEvent where
  name : String
  date : String
  time : String
  location : String
deriving DecidableEq, Repr

/-- Error kinds of the specification, embedding the Python exceptions:
`malformedDate` is the `ValueError` from `strptime` (naming the offending
string), `malformedEvent` the `KeyError` when a record has no `start`
field, `startValueMissing` the `AttributeError` when `start` has neither
`dateTime` nor `date`, and `invalidIso` the `ValueError` from
`fromisoformat`. -/
inductive AppError where
  | malformedDate (s : String)
  | malformedEvent
  | startValueMissing
  | invalidIso (s : String)
deriving DecidableEq, Repr

/-- Output of the display step: either a plain message or a table with
headers and rows. -/
inductive Output where
  | message (s : String)
  | table (headers : List String) (rows : List (List String))
deriving DecidableEq, Repr

/-- The per-event body of the loop in `display_events` (lines 62-76 of
`src/app.py`): name from `summary` with default, start string from
`dateTime` with fallback to `date`, parse after `replace("Z", "")`, date
as `%d/%m/%Y`, time as `%H:%M:%S` when `"T" in start_iso` else
`"All Day"`, location with default. -/
def normalize (e : RawEvent) : Except AppError DisplayEvent :=
  let event_name := e.summary.getD "No Title"
  match e.start with
  | none => .error .malformedEvent
  | some st =>
    match st.dateTime <|> st.date with
    | none => .error .startValueMissing
    | some start_iso =>
      match fromisoformat (removeZ start_iso) with
      | none => .error (.invalidIso start_iso)
      | some dt =>
        .ok { name := event_name,
              date := strftimeDMY dt,
              time := if containsT start_iso then strftimeHMS dt else "All Day",
              location := e.location.getD "No Location" }

/-- Row of the table built for one normalized event. -/
def rowOf (d : DisplayEvent) : List String :=
  [d.name, d.date, d.time, d.location]

/-- `display_events` from `src/app.py`: empty input prints the fixed
message; otherwise each record is normalized in order into a row and the
table is printed with the fixed headers. An exception while normalizing
any record aborts the whole step before anything is printed. -/
def display_events (events : List RawEvent) : Except AppError Output :=
  match events with
  | [] => .ok (.message "No events found.")
  | _ => do
    let rows ← events.mapM (fun e => (normalize e).map rowOf)
    pure (.table ["Event Name", "Date", "Time", "Location"] rows)

/-- The query descriptor sent to `service.events().list(...)`. -/
structure Query where
  calendarId : String
  timeMin : Option String
  timeMax : Option String
  maxResults : Nat
  singleEvents : Bool
  orderBy : String
deriving DecidableEq, Repr

/-- The query issued by `fetch_events_by_date_range` (lines 31-38). -/
def rangedQuery (tmin tmax : String) : Query :=
  { calendarId := "primary", timeMin := some tmin, timeMax := some tmax,
    maxResults := 2500, singleEvents := true, orderBy := "startTime" }

/-- The query issued by `fetch_all_events` (lines 45-50). -/
def unboundedQuery : Query :=
  { calendarId := "primary", timeMin := none, timeMax := none,
    maxResults := 2500, singleEvents := true, orderBy := "startTime" }

/-- The provider response: the `items` key, possibly absent. -/
structure ApiResponse where
  items : Option (List RawEvent)

/-- The window computation of `fetch_events_by_date_range` (lines 17-28):
parse both `dd/mm/yyyy` strings, put the start at 00:00:00 and the end at
23:59:59 on their calendar days, serialize with `isoformat()` and append
a literal `"Z"`. -/
def buildWindow (start_date end_date : String) :
    Except AppError (String × String) :=
  match strptimeDMY start_date with
  | none => .error (.malformedDate start_date)
  | some (sd, sm, sy) =>
    match strptimeDMY end_date with
    | none => .error (.malformedDate end_date)
    | some (ed, em, ey) =>
      .ok (isoformat ⟨sy, sm, sd, 0, 0, 0⟩ ++ "Z",
           isoformat ⟨ey, em, ed, 23, 59, 59⟩ ++ "Z")

/-- `fetch_events_by_date_range` (lines 14-40): build the window, query
the service with the bounded descriptor, return `items` or `[]`. -/
def fetch_events_by_date_range (service : Query → ApiResponse)
    (start_date end_date : String) : Except AppError (List RawEvent) :=
  (buildWindow start_date end_date).map fun w =>
    ((service (rangedQuery w.1 w.2)).items.getD [])

/-- `fetch_all_events` (lines 43-51): query the service with the
unbounded descriptor, return `items` or `[]`. -/
def fetch_all_events (service : Query → ApiResponse) : List RawEvent :=
  (service unboundedQuery).items.getD []

/-- The menu-choice-2 path of `main` (lines 120-131): ranged fetch then
display; an error anywhere propagates and no output is produced. -/
def runRanged (service : Query → ApiResponse)
    (start_date end_date : String) : Except AppError Output :=
  (fetch_events_by_date_range service start_date end_date).bind display_events

/-- Rebuild a start string from a DisplayEvent's `date` and `time`
through the program's own rules: re-parse the `dd/mm/yyyy` date, emit the
ISO date, and splice the `HH:MM:SS` time back in (with the `Z` marker)
unless the time is the all-day marker. -/
def displayStart (date time : String) : Option String :=
  match strptimeDMY date with
  | none => none
  | some (d, m, y) =>
    let iso := String.mk (isoDateChars ⟨y, m, d, 0, 0, 0⟩)
    if time = "All Day" then some iso else some (iso ++ "T" ++ time ++ "Z")

/-- Feed a DisplayEvent's captured fields back through `normalize`:
the rebuilt start string is placed in `dateTime` for a timed event and in
`date` for an all-day event. -/
def renormalize (d : DisplayEvent) : Except AppError DisplayEvent :=
  match displayStart d.date d.time with
  | none => .error (.invalidIso d.date)
  | some s =>
    normalize
      { summary := some d.name,
        start := some (if d.time = "All Day"
                       then ⟨none, some s⟩ else ⟨some s, none⟩),
        location := some d.location }

/-- A start string of the shape the RawEvent data model allows: any `Z`
it contains is a single trailing one. -/
def GoodStart (s : String) : Prop :=
  ('Z' ∉ s.toList) ∨ (∃ t, s.toList = t ++ ['Z'] ∧ 'Z' ∉ t)

/-! ## Helper lemmas -/

theorem digitChar_mod10_spec (n : Nat) :
    isDigit (Nat.digitChar (n % 10)) = true ∧
    digitVal (Nat.digitChar (n % 10)) = n % 10 ∧
    Nat.digitChar (n % 10) ≠ 'T' ∧ Nat.digitChar (n % 10) ≠ 'Z' ∧
    Nat.digitChar (n % 10) ≠ '/' ∧ Nat.digitChar (n % 10) ≠ ':' ∧
    Nat.digitChar (n % 10) ≠ '-' := by
  have h : n % 10 < 10 := Nat.mod_lt _ (by norm_num)
  set k := n % 10 with hk
  interval_cases k <;> exact ⟨by decide, by decide, by decide, by decide,
    by decide, by decide, by decide⟩

theorem parseNatDigits_pad2L (n : Nat) (h : n < 100) :
    parseNatDigits (pad2L n) = some n := by
  have h1 := digitChar_mod10_spec (n / 10)
  have h2 := digitChar_mod10_spec n
  have e1 : n / 10 % 10 = n / 10 := Nat.mod_eq_of_lt (by omega)
  simp only [parseNatDigits, pad2L, List.all_cons, List.all_nil,
    List.foldl_cons, List.foldl_nil, h1.1, h2.1, ne_eq, Bool.and_true,
    and_true]
  rw [if_pos (by simp)]
  rw [h1.2.1, h2.2.1, e1]
  congr 1
  omega

theorem parseNatDigits_pad4L (n : Nat) (h : n < 10000) :
    parseNatDigits (pad4L n) = some n := by
  have h1 := digitChar_mod10_spec (n / 1000)
  have h2 := digitChar_mod10_spec (n / 100)
  have h3 := digitChar_mod10_spec (n / 10)
  have h4 := digitChar_mod10_spec n
  simp only [parseNatDigits, pad4L, List.all_cons, List.all_nil,
    List.foldl_cons, List.foldl_nil, h1.1, h2.1, h3.1, h4.1, Bool.and_true,
    and_true]
  rw [if_pos (by simp)]
  rw [h1.2.1, h2.2.1, h3.2.1, h4.2.1]
  congr 1
  omega

theorem splitOnChar_ne_nil (sep : Char) (l : List Char) :
    splitOnChar sep l ≠ [] := by
  cases l with
  | nil => simp [splitOnChar]
  | cons c rest =>
    simp only [splitOnChar]
    cases splitOnChar sep rest with
    | nil => simp
    | cons h t =>
      show (if c = sep then [] :: h :: t else (c :: h) :: t) ≠ []
      split <;> simp

theorem splitOnChar_not_mem (sep : Char) (l : List Char) (h : sep ∉ l) :
    splitOnChar sep l = [l] := by
  induction l with
  | nil => rfl
  | cons c rest ih =>
    have hc : c ≠ sep := fun hcs => h (hcs ▸ List.mem_cons_self c rest)
    have hrest : sep ∉ rest := fun hm => h (List.mem_cons_of_mem c hm)
    rw [splitOnChar, ih hrest]
    simp [hc]

theorem splitOnChar_append (sep : Char) (a b : List Char) (h : sep ∉ a) :
    splitOnChar sep (a ++ sep :: b) = a :: splitOnChar sep b := by
  induction a with
  | nil =>
    rw [List.nil_append, splitOnChar]
    cases hb : splitOnChar sep b with
    | nil => exact absurd hb (splitOnChar_ne_nil sep b)
    | cons y ys => simp
  | cons c rest ih =>
    have hc : c ≠ sep := fun hcs => h (hcs ▸ List.mem_cons_self c rest)
    have hrest : sep ∉ rest := fun hm => h (List.mem_cons_of_mem c hm)
    rw [List.cons_append, splitOnChar, ih hrest]
    simp [hc]

theorem slash_not_mem_pad2L (n : Nat) : '/' ∉ pad2L n := by
  have h1 := digitChar_mod10_spec (n / 10)
  have h2 := digitChar_mod10_spec n
  simp only [pad2L, List.mem_cons, List.not_mem_nil, or_false]
  exact fun hc => hc.elim (fun he => h1.2.2.2.2.1 he.symm)
    (fun he => h2.2.2.2.2.1 he.symm)

theorem slash_not_mem_pad4L (n : Nat) : '/' ∉ pad4L n := by
  have h1 := digitChar_mod10_spec (n / 1000)
  have h2 := digitChar_mod10_spec (n / 100)
  have h3 := digitChar_mod10_spec (n / 10)
  have h4 := digitChar_mod10_spec n
  simp only [pad4L, List.mem_cons, List.not_mem_nil, or_false]
  intro hc
  rcases hc with he | he | he | he
  · exact h1.2.2.2.2.1 he.symm
  · exact h2.2.2.2.2.1 he.symm
  · exact h3.2.2.2.2.1 he.symm
  · exact h4.2.2.2.2.1 he.symm

theorem validDate_bounds {y m d : Nat} (h : validDate y m d = true) :
    1 ≤ y ∧ y ≤ 9999 ∧ 1 ≤ m ∧ m ≤ 12 ∧ 1 ≤ d ∧ d ≤ 31 := by
  simp only [validDate, Bool.and_eq_true, decide_eq_true_eq] at h
  have hd : daysInMonth y m ≤ 31 := by
    simp only [daysInMonth]
    split
    · split <;> omega
    · split <;> omega
  omega

/-- `strptime "%d/%m/%Y"` inverts `strftime "%d/%m/%Y"` on valid dates. -/
theorem strptimeDMY_strftimeDMY (dt : PyDateTime)
    (h : validDate dt.year dt.month dt.day = true) :
    strptimeDMY (strftimeDMY dt) = some (dt.day, dt.month, dt.year) := by
  obtain ⟨hy1, hy2, hm1, hm2, hd1, hd2⟩ := validDate_bounds h
  have htl : (strftimeDMY dt).toList = dateCharsDMY dt := rfl
  have hs : splitOnChar '/' (dateCharsDMY dt) =
      [pad2L dt.day, pad2L dt.month, pad4L dt.year] := by
    show splitOnChar '/'
      (pad2L dt.day ++ '/' :: (pad2L dt.month ++ '/' :: pad4L dt.year)) = _
    rw [splitOnChar_append '/' _ _ (slash_not_mem_pad2L _),
        splitOnChar_append '/' _ _ (slash_not_mem_pad2L _),
        splitOnChar_not_mem '/' _ (slash_not_mem_pad4L _)]
  have hlen : (pad2L dt.day).length ≤ 2 ∧ (pad2L dt.month).length ≤ 2 ∧
      (pad4L dt.year).length = 4 := by simp [pad2L, pad4L]
  simp only [strptimeDMY, htl, hs]
  rw [if_pos hlen]
  rw [parseNatDigits_pad2L _ (by omega), parseNatDigits_pad2L _ (by omega),
      parseNatDigits_pad4L _ (by omega)]
  simp only [h, if_true]

theorem parseNatDigits_digits2 (n : Nat) (h : n < 100) :
    parseNatDigits [Nat.digitChar (n / 10 % 10), Nat.digitChar (n % 10)] =
      some n :=
  parseNatDigits_pad2L n h

theorem parseNatDigits_digits4 (n : Nat) (h : n < 10000) :
    parseNatDigits [Nat.digitChar (n / 1000 % 10), Nat.digitChar (n / 100 % 10),
      Nat.digitChar (n / 10 % 10), Nat.digitChar (n % 10)] = some n :=
  parseNatDigits_pad4L n h

theorem validTime_bounds {h i s : Nat} (ht : validTime h i s = true) :
    h ≤ 23 ∧ i ≤ 59 ∧ s ≤ 59 := by
  simp only [validTime, Bool.and_eq_true, decide_eq_true_eq] at ht
  omega

theorem parseTimeChars_digits (h i s : Nat) (hh : h < 100) (hi : i < 100)
    (hs : s < 100) :
    parseTimeChars [Nat.digitChar (h / 10 % 10), Nat.digitChar (h % 10), ':',
      Nat.digitChar (i / 10 % 10), Nat.digitChar (i % 10), ':',
      Nat.digitChar (s / 10 % 10), Nat.digitChar (s % 10)] = some (h, i, s) := by
  simp only [parseTimeChars, parseNatDigits_digits2 h hh,
    parseNatDigits_digits2 i hi, parseNatDigits_digits2 s hs]

/-- `fromisoformat` inverts `isoformat` on valid date-times. -/
theorem fromisoChars_roundtrip (y mo d h i s : Nat)
    (hd : validDate y mo d = true) (ht : validTime h i s = true) :
    fromisoChars ((pad4L y ++ '-' :: pad2L mo ++ '-' :: pad2L d) ++
      'T' :: (pad2L h ++ ':' :: pad2L i ++ ':' :: pad2L s)) =
      some ⟨y, mo, d, h, i, s⟩ := by
  obtain ⟨hy1, hy2, hm1, hm2, hd1, hd2⟩ := validDate_bounds hd
  obtain ⟨hh, hi, hs⟩ := validTime_bounds ht
  simp only [pad4L, pad2L, List.cons_append, List.nil_append]
  simp only [fromisoChars, parseNatDigits_digits4 y (by omega),
    parseNatDigits_digits2 mo (by omega), parseNatDigits_digits2 d (by omega),
    parseTimeChars_digits h i s (by omega) (by omega) (by omega),
    mkDT, hd, ht, Bool.and_self, if_true]

/-- `fromisoformat` inverts the date part of `isoformat` on valid dates. -/
theorem fromisoChars_date_roundtrip (y mo d : Nat)
    (hd : validDate y mo d = true) :
    fromisoChars (pad4L y ++ '-' :: pad2L mo ++ '-' :: pad2L d) =
      some ⟨y, mo, d, 0, 0, 0⟩ := by
  obtain ⟨hy1, hy2, hm1, hm2, hd1, hd2⟩ := validDate_bounds hd
  simp only [pad4L, pad2L, List.cons_append, List.nil_append]
  simp only [fromisoChars, parseNatDigits_digits4 y (by omega),
    parseNatDigits_digits2 mo (by omega), parseNatDigits_digits2 d (by omega),
    mkDT, hd, Bool.and_self, if_true]
  simp [validTime]

theorem mem_pad2L {c : Char} {n : Nat} (h : c ∈ pad2L n) :
    ∃ k, c = Nat.digitChar (k % 10) := by
  simp only [pad2L, List.mem_cons, List.not_mem_nil, or_false] at h
  rcases h with h | h
  · exact ⟨n / 10, h⟩
  · exact ⟨n, h⟩

theorem mem_pad4L {c : Char} {n : Nat} (h : c ∈ pad4L n) :
    ∃ k, c = Nat.digitChar (k % 10) := by
  simp only [pad4L, List.mem_cons, List.not_mem_nil, or_false] at h
  rcases h with h | h | h | h
  · exact ⟨n / 1000, h⟩
  · exact ⟨n / 100, h⟩
  · exact ⟨n / 10, h⟩
  · exact ⟨n, h⟩

theorem not_mem_pad2L {c : Char} (hc : isDigit c = false) (n : Nat) :
    c ∉ pad2L n := by
  intro h
  obtain ⟨k, hk⟩ := mem_pad2L h
  rw [hk, (digitChar_mod10_spec k).1] at hc
  exact Bool.noConfusion hc

theorem not_mem_pad4L {c : Char} (hc : isDigit c = false) (n : Nat) :
    c ∉ pad4L n := by
  intro h
  obtain ⟨k, hk⟩ := mem_pad4L h
  rw [hk, (digitChar_mod10_spec k).1] at hc
  exact Bool.noConfusion hc

theorem not_mem_isoDateChars {c : Char} (hd : isDigit c = false)
    (hm : c ≠ '-') (dt : PyDateTime) : c ∉ isoDateChars dt := by
  intro h
  replace h : c ∈ pad4L dt.year ++ '-' :: (pad2L dt.month ++ '-' :: pad2L dt.day) := h
  rcases List.mem_append.mp h with h | h
  · exact not_mem_pad4L hd _ h
  rcases List.mem_cons.mp h with h | h
  · exact hm h
  rcases List.mem_append.mp h with h | h
  · exact not_mem_pad2L hd _ h
  rcases List.mem_cons.mp h with h | h
  · exact hm h
  · exact not_mem_pad2L hd _ h

theorem notZ_isoDateChars (dt : PyDateTime) : 'Z' ∉ isoDateChars dt :=
  not_mem_isoDateChars (by decide) (by decide) dt

theorem notT_isoDateChars (dt : PyDateTime) : 'T' ∉ isoDateChars dt :=
  not_mem_isoDateChars (by decide) (by decide) dt

theorem notZ_timeCharsHMS (dt : PyDateTime) : 'Z' ∉ timeCharsHMS dt := by
  intro h
  replace h : 'Z' ∈ pad2L dt.hour ++ ':' :: (pad2L dt.minute ++ ':' :: pad2L dt.second) := h
  rcases List.mem_append.mp h with h | h
  · exact not_mem_pad2L (by decide) _ h
  rcases List.mem_cons.mp h with h | h
  · exact absurd h (by decide)
  rcases List.mem_append.mp h with h | h
  · exact not_mem_pad2L (by decide) _ h
  rcases List.mem_cons.mp h with h | h
  · exact absurd h (by decide)
  · exact not_mem_pad2L (by decide) _ h

theorem toList_mk (l : List Char) : (String.mk l).toList = l := rfl

theorem filter_neZ_of_not_mem {l : List Char} (h : 'Z' ∉ l) :
    l.filter (fun c => c ≠ 'Z') = l := by
  apply List.filter_eq_self.mpr
  intro a ha
  simp only [ne_eq, decide_eq_true_eq]
  exact fun he => h (he ▸ ha)

theorem mem_of_getLast?_eq {l : List Char} {c : Char}
    (h : l.getLast? = some c) : c ∈ l := by
  obtain ⟨hne, he⟩ := List.mem_getLast?_eq_getLast (Option.mem_def.mpr h)
  exact he ▸ List.getLast_mem hne

/-- On a start string of the RawEvent shape, Python's
`replace("Z", "")` agrees with the specification's
"strip a trailing Z". -/
theorem removeZ_eq_stripTrailingZ (s : String) (h : GoodStart s) :
    removeZ s = stripTrailingZ s := by
  rcases h with h | ⟨t, ht, hz⟩
  · have h1 : s.toList.filter (fun c => c ≠ 'Z') = s.toList :=
      filter_neZ_of_not_mem h
    have h2 : ¬ s.toList.getLast? = some 'Z' :=
      fun hg => h (mem_of_getLast?_eq hg)
    unfold removeZ stripTrailingZ
    rw [h1, if_neg h2]
    cases s
    rfl
  · have h1 : s.toList.filter (fun c => c ≠ 'Z') = t := by
      rw [ht, List.filter_append, filter_neZ_of_not_mem hz]
      simp
    have h2 : s.toList.getLast? = some 'Z' := by
      rw [ht]
      exact List.getLast?_concat t
    have h3 : s.toList.dropLast = t := by
      rw [ht]
      exact List.dropLast_concat
    unfold removeZ stripTrailingZ
    rw [h1, if_pos h2, h3]

theorem mkDT_valid {y mo d h i s : Nat} {dt : PyDateTime}
    (he : mkDT y mo d h i s = some dt) :
    validDate dt.year dt.month dt.day = true ∧
    validTime dt.hour dt.minute dt.second = true := by
  unfold mkDT at he
  split at he
  · cases he
    next hb => exact ⟨(Bool.and_eq_true _ _ ▸ hb).1, (Bool.and_eq_true _ _ ▸ hb).2⟩
  · exact Option.noConfusion he

/-- Every date-time produced by `fromisoformat` passed the constructor's
validity checks. -/
theorem fromisoChars_valid {l : List Char} {dt : PyDateTime}
    (h : fromisoChars l = some dt) :
    validDate dt.year dt.month dt.day = true ∧
    validTime dt.hour dt.minute dt.second = true := by
  unfold fromisoChars at h
  split at h
  all_goals try split at h
  all_goals try split at h
  all_goals try split at h
  all_goals first
    | exact Option.noConfusion h
    | exact mkDT_valid h

/-- Inversion of a successful `normalize`. -/
theorem normalize_ok {e : RawEvent} {d : DisplayEvent}
    (h : normalize e = Except.ok d) :
    ∃ st s dt, e.start = some st ∧ (st.dateTime <|> st.date) = some s ∧
      fromisoformat (removeZ s) = some dt ∧
      d = ⟨e.summary.getD "No Title", strftimeDMY dt,
           if containsT s then strftimeHMS dt else "All Day",
           e.location.getD "No Location"⟩ := by
  simp only [normalize] at h
  split at h
  · exact Except.noConfusion h
  next st heq =>
    split at h
    · exact Except.noConfusion h
    next s heq2 =>
      split at h
      · exact Except.noConfusion h
      next dt heq3 =>
        cases h
        exact ⟨st, s, dt, heq, heq2, heq3, rfl⟩

/-! ## Claim theorems -/

/-- C1: for every pair of valid `dd/mm/yyyy` date strings, the window
builder produces the start date at 00:00:00 and the end date at 23:59:59
(seconds, not 23:59:59.999), each serialized as the naive ISO-8601 string
with a literal `"Z"` appended. -/
theorem C1_window_bounds (sdt edt : String) (sd sm sy ed em ey : Nat)
    (hs : strptimeDMY sdt = some (sd, sm, sy))
    (he : strptimeDMY edt = some (ed, em, ey)) :
    buildWindow sdt edt =
      .ok (isoformat ⟨sy, sm, sd, 0, 0, 0⟩ ++ "Z",
           isoformat ⟨ey, em, ed, 23, 59, 59⟩ ++ "Z") := by
  simp only [buildWindow, hs, he]

/-- C1 witness: start `01/01/2024` and end `31/01/2024` yield the bounds
`2024-01-01T00:00:00Z` and `2024-01-31T23:59:59Z`. -/
theorem C1_witness :
    buildWindow "01/01/2024" "31/01/2024" =
      .ok ("2024-01-01T00:00:00Z", "2024-01-31T23:59:59Z") := by
  rw [C1_window_bounds "01/01/2024" "31/01/2024" 1 1 2024 31 1 2024
    (by rfl) (by rfl)]
  rfl

/-- C2: an input date string that does not parse under the `dd/mm/yyyy`
pattern makes the window builder fail with a `MalformedDateError` naming
the offending string, and the error propagates through the ranged run
with no recovery. -/
theorem C2_malformed_date (sdt edt : String) (service : Query → ApiResponse) :
    (strptimeDMY sdt = none →
      buildWindow sdt edt = .error (.malformedDate sdt) ∧
      runRanged service sdt edt = .error (.malformedDate sdt)) ∧
    (strptimeDMY edt = none → strptimeDMY sdt ≠ none →
      buildWindow sdt edt = .error (.malformedDate edt) ∧
      runRanged service sdt edt = .error (.malformedDate edt)) := by
  constructor
  · intro h
    have hb : buildWindow sdt edt = .error (.malformedDate sdt) := by
      simp only [buildWindow, h]
    refine ⟨hb, ?_⟩
    simp only [runRanged, fetch_events_by_date_range, hb, Except.map_error]
    rfl
  · intro h hne
    obtain ⟨v, hv⟩ := Option.ne_none_iff_exists.mp hne
    obtain ⟨⟨d1, m1, y1⟩, hv2⟩ : ∃ p, strptimeDMY sdt = some p := ⟨v, hv.symm⟩
    have hb : buildWindow sdt edt = .error (.malformedDate edt) := by
      simp only [buildWindow, hv2, h]
    refine ⟨hb, ?_⟩
    simp only [runRanged, fetch_events_by_date_range, hb, Except.map_error]
    rfl

/-- C2 witness: `31/13/2024` and `not-a-date` abort the ranged run with
the error naming the offending string. -/
theorem C2_witness :
    buildWindow "31/13/2024" "01/01/2024" =
      .error (.malformedDate "31/13/2024") ∧
    runRanged (fun _ => ⟨none⟩) "01/01/2024" "not-a-date" =
      .error (.malformedDate "not-a-date") :=
  ⟨((C2_malformed_date "31/13/2024" "01/01/2024" (fun _ => ⟨none⟩)).1
      (by decide)).1,
   ((C2_malformed_date "01/01/2024" "not-a-date" (fun _ => ⟨none⟩)).2
      (by decide) (by decide)).2⟩

/-- C3 counterexample: a present-but-empty summary (resp. location)
yields the empty string, not the claimed default `"No Title"`
(resp. `"No Location"`). -/
theorem C3_counterexample :
    normalize ⟨some "", some ⟨some "2024-03-15T14:30:00Z", none⟩, some ""⟩ =
      .ok ⟨"", "15/03/2024", "14:30:00", ""⟩ ∧
    ("" : String) ≠ "No Title" ∧ ("" : String) ≠ "No Location" :=
  ⟨rfl, by decide, by decide⟩

/-- C3 amended: the display name is the summary exactly when the summary
key is present (even empty) and `"No Title"` when absent, and likewise
the display location is the location exactly when present and
`"No Location"` when absent. -/
theorem C3_defaults (e : RawEvent) (d : DisplayEvent)
    (h : normalize e = .ok d) :
    d.name = e.summary.getD "No Title" ∧
    d.location = e.location.getD "No Location" := by
  obtain ⟨st, s, dt, hst, hsel, hparse, hd⟩ := normalize_ok h
  subst hd
  exact ⟨rfl, rfl⟩

/-- C3 witness: an event with absent summary and location gets both
defaults. -/
theorem C3_witness :
    (⟨"No Title", "15/03/2024", "14:30:00", "No Location"⟩ :
      DisplayEvent).name = (none : Option String).getD "No Title" ∧
    (⟨"No Title", "15/03/2024", "14:30:00", "No Location"⟩ :
      DisplayEvent).location = (none : Option String).getD "No Location" :=
  C3_defaults ⟨none, some ⟨some "2024-03-15T14:30:00Z", none⟩, none⟩ _ rfl

/-- C7: for the empty event sequence the presenter produces exactly the
message `"No events found."` and no table. -/
theorem C7_empty_message :
    display_events [] = .ok (.message "No events found.") := rfl

/-- C8: both fetch operations query the fixed `"primary"` calendar with
`maxResults` 2500, single-occurrence expansion, ordering by start time,
and the two queries are identical except for the time bounds, which only
the ranged one supplies. -/
theorem C8_query_parameters (tmin tmax : String)
    (service : Query → ApiResponse) (sd ed : String) (w : String × String)
    (hw : buildWindow sd ed = .ok w) :
    rangedQuery tmin tmax =
      ⟨"primary", some tmin, some tmax, 2500, true, "startTime"⟩ ∧
    unboundedQuery = ⟨"primary", none, none, 2500, true, "startTime"⟩ ∧
    { rangedQuery tmin tmax with timeMin := none, timeMax := none } =
      unboundedQuery ∧
    fetch_events_by_date_range service sd ed =
      .ok ((service (rangedQuery w.1 w.2)).items.getD []) ∧
    fetch_all_events service = (service unboundedQuery).items.getD [] := by
  refine ⟨rfl, rfl, rfl, ?_, rfl⟩
  simp only [fetch_events_by_date_range, hw]
  rfl

/-- C8 witness: both fetches at concrete inputs against a service that
returns an empty item list. -/
theorem C8_witness :
    fetch_events_by_date_range (fun _ => ⟨some []⟩) "01/01/2024"
      "31/01/2024" = .ok [] ∧
    fetch_all_events (fun _ => ⟨some []⟩) = [] := by
  have h := C8_query_parameters "2024-01-01T00:00:00Z"
    "2024-01-31T23:59:59Z" (fun _ => ⟨some []⟩) "01/01/2024" "31/01/2024"
    ("2024-01-01T00:00:00Z", "2024-01-31T23:59:59Z") (by rfl)
  exact ⟨h.2.2.2.1, h.2.2.2.2⟩

/-- C10: when the response lacks the `items` field both fetch operations
return the empty list, and the empty list downstream produces the
`"No events found."` path. -/
theorem C10_missing_items (service : Query → ApiResponse) (sd ed : String)
    (w : String × String) (hw : buildWindow sd ed = .ok w)
    (hri : (service (rangedQuery w.1 w.2)).items = none)
    (hui : (service unboundedQuery).items = none) :
    fetch_events_by_date_range service sd ed = .ok [] ∧
    fetch_all_events service = [] ∧
    display_events [] = .ok (.message "No events found.") := by
  refine ⟨?_, ?_, rfl⟩
  · simp only [fetch_events_by_date_range, hw]
    rw [show ((Except.ok w).map fun v =>
      ((service (rangedQuery v.1 v.2)).items.getD []) : Except AppError _) =
      .ok ((service (rangedQuery w.1 w.2)).items.getD []) from rfl, hri]
    rfl
  · simp only [fetch_all_events, hui]
    rfl

/-- C10 witness: a service that answers without an `items` field. -/
theorem C10_witness :
    fetch_events_by_date_range (fun _ => ⟨none⟩) "01/01/2024" "31/01/2024" =
      .ok [] ∧
    fetch_all_events (fun _ => ⟨none⟩) = [] ∧
    display_events [] = .ok (.message "No events found.") :=
  C10_missing_items (fun _ => ⟨none⟩) "01/01/2024" "31/01/2024"
    ("2024-01-01T00:00:00Z", "2024-01-31T23:59:59Z") (by rfl) rfl rfl

/-- C4: for a raw event whose start string is given (and of the RawEvent
shape), the normalizer parses it by stripping a trailing `Z` if present
and reading the rest as a naive date/time, and formats the display date
as `dd/mm/yyyy`. -/
theorem C4_strip_trailing (e : RawEvent) (st : StartField) (s : String)
    (hst : e.start = some st) (hsel : (st.dateTime <|> st.date) = some s)
    (hgs : GoodStart s) :
    removeZ s = stripTrailingZ s ∧
    ∀ dt, fromisoformat (stripTrailingZ s) = some dt →
      normalize e = .ok ⟨e.summary.getD "No Title", strftimeDMY dt,
        if containsT s then strftimeHMS dt else "All Day",
        e.location.getD "No Location"⟩ := by
  have hr := removeZ_eq_stripTrailingZ s hgs
  refine ⟨hr, fun dt hdt => ?_⟩
  rw [← hr] at hdt
  simp only [normalize, hst, hsel, hdt]

/-- C4 witness: the date-time start `2024-03-15T14:30:00Z` with no
location normalizes to date `15/03/2024`, time `14:30:00`, location
`No Location`. -/
theorem C4_witness :
    normalize ⟨none, some ⟨some "2024-03-15T14:30:00Z", none⟩, none⟩ =
      .ok ⟨"No Title", "15/03/2024", "14:30:00", "No Location"⟩ := by
  have h := (C4_strip_trailing
    ⟨none, some ⟨some "2024-03-15T14:30:00Z", none⟩, none⟩
    ⟨some "2024-03-15T14:30:00Z", none⟩ "2024-03-15T14:30:00Z" rfl rfl
    (Or.inr ⟨"2024-03-15T14:30:00".toList, by decide, by decide⟩)).2
    ⟨2024, 3, 15, 14, 30, 0⟩ (by rfl)
  rw [h]
  rfl

/-- C5: the date-time start field takes precedence over the date-only
field, and the display time is the parsed time formatted `HH:MM:SS`
exactly when the selected start string contains the `T` separator, else
the literal `All Day`. -/
theorem C5_datetime_precedence (e : RawEvent) (st : StartField) (s : String)
    (hst : e.start = some st) (hsel : (st.dateTime <|> st.date) = some s) :
    (∀ x, st.dateTime = some x → s = x) ∧
    ∀ dt, fromisoformat (removeZ s) = some dt →
      normalize e = .ok ⟨e.summary.getD "No Title", strftimeDMY dt,
        if containsT s then strftimeHMS dt else "All Day",
        e.location.getD "No Location"⟩ := by
  constructor
  · intro x hx
    rw [hx, Option.some_orElse] at hsel
    exact (Option.some.inj hsel).symm
  · intro dt hdt
    simp only [normalize, hst, hsel, hdt]

/-- C5 witness: a date-only start `2024-03-15` with summary `Offsite`
yields name `Offsite`, date `15/03/2024`, time `All Day`; and when both
start fields are present the date-time one is used. -/
theorem C5_witness :
    normalize ⟨some "Offsite", some ⟨none, some "2024-03-15"⟩, none⟩ =
      .ok ⟨"Offsite", "15/03/2024", "All Day", "No Location"⟩ ∧
    normalize ⟨none, some ⟨some "2024-03-15T14:30:00Z", some "2024-01-01"⟩,
      none⟩ = .ok ⟨"No Title", "15/03/2024", "14:30:00", "No Location"⟩ := by
  constructor
  · have h := (C5_datetime_precedence
      ⟨some "Offsite", some ⟨none, some "2024-03-15"⟩, none⟩
      ⟨none, some "2024-03-15"⟩ "2024-03-15" rfl rfl).2
      ⟨2024, 3, 15, 0, 0, 0⟩ (by rfl)
    rw [h]
    rfl
  · have h := (C5_datetime_precedence
      ⟨none, some ⟨some "2024-03-15T14:30:00Z", some "2024-01-01"⟩, none⟩
      ⟨some "2024-03-15T14:30:00Z", some "2024-01-01"⟩
      "2024-03-15T14:30:00Z" rfl rfl).2 ⟨2024, 3, 15, 14, 30, 0⟩ (by rfl)
    rw [h]
    rfl

theorem mapM_error_of_mem {f : RawEvent → Except AppError (List String)} :
    ∀ (es : List RawEvent) (e : RawEvent), e ∈ es →
      (∃ er, f e = .error er) → ∃ er2, es.mapM f = .error er2 := by
  intro es
  induction es with
  | nil => intro e he _; cases he
  | cons a rest ih =>
    intro e he herr
    obtain ⟨er, hfe⟩ := herr
    rcases List.mem_cons.mp he with rfl | hmem
    · refine ⟨er, ?_⟩
      rw [List.mapM_cons, hfe]
      rfl
    · cases hfa : f a with
      | error er3 =>
        refine ⟨er3, ?_⟩
        rw [List.mapM_cons, hfa]
        rfl
      | ok b =>
        obtain ⟨er2, h2⟩ := ih e hmem ⟨er, hfe⟩
        refine ⟨er2, ?_⟩
        rw [List.mapM_cons, hfa]
        show (rest.mapM f >>= fun bs => pure (b :: bs)) = .error er2
        rw [h2]
        rfl

/-- C6: an event whose start field is entirely absent makes `normalize`
fail with `MalformedEventError`, and a sequence containing such an event
makes the whole display step fail: no table is produced. -/
theorem C6_missing_start (e : RawEvent) (es : List RawEvent)
    (hstart : e.start = none) (hmem : e ∈ es) :
    normalize e = .error .malformedEvent ∧
    ∃ er, display_events es = .error er := by
  have hn : normalize e = .error .malformedEvent := by
    simp only [normalize, hstart]
  refine ⟨hn, ?_⟩
  cases es with
  | nil => cases hmem
  | cons a rest =>
    obtain ⟨er2, h2⟩ := mapM_error_of_mem
      (f := fun ev => (normalize ev).map rowOf) (a :: rest) e hmem
      ⟨.malformedEvent, by
        show Except.map rowOf (normalize e) = Except.error .malformedEvent
        rw [hn]
        rfl⟩
    refine ⟨er2, ?_⟩
    have hd : display_events (a :: rest) =
        ((a :: rest).mapM (fun ev => (normalize ev).map rowOf) >>=
          fun rows => pure (Output.table
            ["Event Name", "Date", "Time", "Location"] rows)) := rfl
    rw [hd, h2]
    rfl

/-- C6 witness: a record with no start field aborts the display of a
two-event list. -/
theorem C6_witness :
    normalize ⟨some "X", none, none⟩ = .error .malformedEvent ∧
    ∃ er, display_events
      [⟨some "A", some ⟨some "2024-03-15T14:30:00Z", none⟩, none⟩,
       ⟨some "X", none, none⟩] = .error er :=
  C6_missing_start ⟨some "X", none, none⟩ _ rfl
    (List.mem_cons_of_mem _ (List.mem_cons_self _ _))

theorem toList_append (a b : String) :
    (a ++ b).toList = a.toList ++ b.toList :=
  String.data_append a b

theorem strftimeHMS_ne_allDay (dt : PyDateTime) :
    strftimeHMS dt ≠ "All Day" := by
  intro h
  have hlen : (strftimeHMS dt).toList.length = 8 := by
    simp [strftimeHMS, toList_mk, timeCharsHMS, pad2L]
  rw [h] at hlen
  exact absurd hlen (by decide)

theorem containsT_of_mem {s : String} (h : 'T' ∈ s.toList) :
    containsT s = true :=
  List.elem_iff.mpr h

theorem containsT_eq_false {s : String} (h : 'T' ∉ s.toList) :
    containsT s = false := by
  have h2 : ¬ containsT s = true := fun hc => h (List.elem_iff.mp hc)
  cases hb : containsT s
  · rfl
  · exact absurd hb h2

/-- C9: normalization loses no information on the fields it captures:
pushing a DisplayEvent's date and time back through the same parsing and
formatting rules reproduces the event identically. -/
theorem C9_renormalize_id (e : RawEvent) (d : DisplayEvent)
    (h : normalize e = .ok d) : renormalize d = .ok d := by
  obtain ⟨st, s, dt, hst, hsel, hparse, hd⟩ := normalize_ok h
  obtain ⟨hvd, hvt⟩ := fromisoChars_valid (l := (removeZ s).toList) hparse
  subst hd
  by_cases hT : containsT s = true
  · -- timed event: the captured time is `HH:MM:SS`
    have htime : (if containsT s then strftimeHMS dt else "All Day") =
        strftimeHMS dt := by simp [hT]
    have hne := strftimeHMS_ne_allDay dt
    have hne2 : (strftimeHMS dt = "All Day") = False := eq_false hne
    have hds : displayStart (strftimeDMY dt) (strftimeHMS dt) =
        some (String.mk (isoDateChars ⟨dt.year, dt.month, dt.day, 0, 0, 0⟩)
          ++ "T" ++ strftimeHMS dt ++ "Z") := by
      simp only [displayStart, strptimeDMY_strftimeDMY dt hvd, hne2,
        if_false]
    have hsplit : (String.mk (isoDateChars ⟨dt.year, dt.month, dt.day,
        0, 0, 0⟩) ++ "T" ++ strftimeHMS dt ++ "Z").toList =
        isoDateChars ⟨dt.year, dt.month, dt.day, 0, 0, 0⟩ ++ ['T'] ++
          timeCharsHMS dt ++ ['Z'] := by
      rw [toList_append, toList_append, toList_append]
      rfl
    have hfil : (removeZ (String.mk (isoDateChars ⟨dt.year, dt.month,
        dt.day, 0, 0, 0⟩) ++ "T" ++ strftimeHMS dt ++ "Z")).toList =
        (pad4L dt.year ++ '-' :: pad2L dt.month ++ '-' :: pad2L dt.day) ++
          'T' :: (pad2L dt.hour ++ ':' :: pad2L dt.minute ++ ':' ::
            pad2L dt.second) := by
      show ((String.mk (isoDateChars ⟨dt.year, dt.month, dt.day, 0, 0, 0⟩)
        ++ "T" ++ strftimeHMS dt ++ "Z").toList.filter fun c => c ≠ 'Z') = _
      rw [hsplit, List.filter_append, List.filter_append,
        List.filter_append,
        filter_neZ_of_not_mem (notZ_isoDateChars _),
        filter_neZ_of_not_mem (notZ_timeCharsHMS _),
        show (['T'] : List Char).filter (fun c => c ≠ 'Z') = ['T'] from rfl,
        show (['Z'] : List Char).filter (fun c => c ≠ 'Z') =
          ([] : List Char) from rfl]
      simp [isoDateChars, timeCharsHMS, List.append_assoc]
    have hiso : fromisoformat (removeZ (String.mk (isoDateChars ⟨dt.year,
        dt.month, dt.day, 0, 0, 0⟩) ++ "T" ++ strftimeHMS dt ++ "Z")) =
        some dt := by
      show fromisoChars ((removeZ _).toList) = some dt
      rw [hfil]
      exact fromisoChars_roundtrip dt.year dt.month dt.day dt.hour
        dt.minute dt.second hvd hvt
    have hcT : containsT (String.mk (isoDateChars ⟨dt.year, dt.month,
        dt.day, 0, 0, 0⟩) ++ "T" ++ strftimeHMS dt ++ "Z") = true := by
      apply containsT_of_mem
      rw [hsplit]
      simp
    simp only [htime, renormalize, hds, hne2, if_false, normalize,
      Option.some_orElse, hiso, hcT, if_true, Option.getD_some]
  · -- all-day event: the captured time is the literal marker
    have hT2 : containsT s = false := by
      cases hb : containsT s
      · rfl
      · exact absurd hb hT
    have htime : (if containsT s then strftimeHMS dt else "All Day") =
        "All Day" := by simp [hT2]
    have hfil2 : (removeZ (String.mk (isoDateChars ⟨dt.year, dt.month,
        dt.day, 0, 0, 0⟩))).toList =
        pad4L dt.year ++ '-' :: pad2L dt.month ++ '-' :: pad2L dt.day := by
      show (String.mk (isoDateChars ⟨dt.year, dt.month, dt.day, 0, 0,
        0⟩)).toList.filter (fun c => c ≠ 'Z') = _
      rw [toList_mk, filter_neZ_of_not_mem (notZ_isoDateChars _)]
      rfl
    have hiso2 : fromisoformat (removeZ (String.mk (isoDateChars ⟨dt.year,
        dt.month, dt.day, 0, 0, 0⟩))) =
        some ⟨dt.year, dt.month, dt.day, 0, 0, 0⟩ := by
      show fromisoChars ((removeZ _).toList) = _
      rw [hfil2]
      exact fromisoChars_date_roundtrip dt.year dt.month dt.day hvd
    have hcT2 : containsT (String.mk (isoDateChars ⟨dt.year, dt.month,
        dt.day, 0, 0, 0⟩)) = false :=
      containsT_eq_false (notT_isoDateChars _)
    have hds2 : displayStart (strftimeDMY dt) "All Day" =
        some (String.mk (isoDateChars ⟨dt.year, dt.month, dt.day,
          0, 0, 0⟩)) := by
      simp only [displayStart, strptimeDMY_strftimeDMY dt hvd, if_pos]
    have hAD : (("All Day" : String) = "All Day") = True := eq_true rfl
    simp only [htime, renormalize, hds2, hAD, if_true, normalize,
      Option.none_orElse, hiso2, hcT2, if_false, Option.getD_some]
    rfl

/-- C9 witness: the all-day display row of a date-only event reproduces
itself through renormalization. -/
theorem C9_witness :
    renormalize ⟨"Offsite", "15/03/2024", "All Day", "No Location"⟩ =
      .ok ⟨"Offsite", "15/03/2024", "All Day", "No Location"⟩ :=
  C9_renormalize_id ⟨some "Offsite", some ⟨none, some "2024-03-15"⟩, none⟩
    _ rfl

end CalApp
